import Mathlib

/-
Verification of the Multi-Agent_Similarity repository.

The development shallowly embeds the two deployments of the pattern
matching pipeline:

  Football namespace : src/Football/main.py (parse_uploaded_json_content,
    the inline player coordinate search, analyze_match match preparation
    and ranking) and src/Football/generate_play_datasets.py
    (get_player_coordinates).
  Melody namespace   : src/main.py (get_top_matches_subsequence, the
    sliding window subsequence search).
  DTWEngine namespace: the DTW distance contract.  The DTW engine itself
    is the external fastdtw library, not part of src/, so its contract is
    modelled from the spec where a claim is decided by it.

Python floats are modelled as rationals, timestamps and identifiers as
integers' domain Int, JSON dictionaries as structures whose fields are
Option valued (none stands for an absent key or a JSON null), and Python
exceptions as the Except monad.
-/

/-! ## A stable sort, modelling the sort of Python

Python list.sort is a stable sort by a key.  We model it with a stable
insertion sort: an element is inserted before the first element that it
is le-below, so that among elements with equal keys the original order
is preserved.  A stable sort with a fixed total preorder has a unique
result, so this denotes the same function as the Timsort of CPython. -/

def pyInsert (le : α → α → Bool) (x : α) : List α → List α
  | [] => [x]
  | y :: ys => if le x y then x :: y :: ys else y :: pyInsert le x ys

def pySort (le : α → α → Bool) : List α → List α
  | [] => []
  | x :: xs => pyInsert le x (pySort le xs)

namespace Football

/-! ## Data model: the parsed JSON events of src/Football/main.py -/

/-- A player entry of the homePlayers or awayPlayers arrays.  A field is
none when the key is absent from the dictionary: reading it with
subscript access then raises KeyError. -/
structure RawPlayer where
  playerId : Option Int
  x : Option ℚ
  y : Option ℚ
deriving DecidableEq, Repr

/-- The gameEvents sub-dictionary.  Fields are read with dict.get and a
default, so absence never raises. -/
structure GameEvents where
  teamId : Option Int
  playerId : Option Int
  playerName : Option String
  teamName : Option String
  gameEventType : Option String
deriving DecidableEq, Repr

instance : Inhabited GameEvents := ⟨⟨none, none, none, none, none⟩⟩

/-- The possessionEvents sub-dictionary. -/
structure PossessionEvents where
  possessionEventType : Option String
deriving DecidableEq, Repr

/-- A JSON field that should hold a dictionary: the key can be missing
(dict.get yields the default), present but not a dictionary (a later
attribute access raises), or a dictionary. -/
inductive JField (α : Type) where
  | missing : JField α
  | notDict : JField α
  | val : α → JField α
deriving DecidableEq, Repr

/-- One element of the uploaded JSON event array. -/
structure RawEvent where
  sequence : Option Int
  eventTime : Option Int
  gameEvents : JField GameEvents
  possessionEvents : JField PossessionEvents
  homePlayers : Option (List RawPlayer)
  awayPlayers : Option (List RawPlayer)
deriving DecidableEq, Repr

/-- The fields the per-event try block of parse_uploaded_json_content
extracts (lines 70 to 80 of src/Football/main.py). -/
structure Extracted where
  team_id : Option Int
  event_time : Int
  player_id : Option Int
  player_name : String
  team_name : String
  game_type : String
  poss_type : String
deriving DecidableEq, Repr

/-- Python str of an optional integer, as used by str(team_id). -/
def pyStr : Option Int → String
  | none => "None"
  | some n => toString n

/-- The per-event try block: event.get and a default never raise, but a
gameEvents or possessionEvents value that is not a dictionary makes the
subsequent attribute access raise, and the except clause continues with
the next event; none models that continue. -/
def extractFields (e : RawEvent) : Option Extracted := do
  let ge ← match e.gameEvents with
    | .missing => some default
    | .notDict => none
    | .val g => some g
  let pe ← match e.possessionEvents with
    | .missing => some ⟨none⟩
    | .notDict => none
    | .val p => some p
  some
    { team_id := ge.teamId
      event_time := e.eventTime.getD 0
      player_id := ge.playerId
      player_name := ge.playerName.getD "Unknown"
      team_name := ge.teamName.getD (pyStr ge.teamId)
      game_type := ge.gameEventType.getD ""
      poss_type := pe.possessionEventType.getD "" }

/-- Substring test, modelling the in operator of Python on strings. -/
def strContains (needle hay : String) : Bool :=
  hay.data.tails.any (fun t => needle.data.isPrefixOf t)

/-- Python str.upper on the character list of the string. -/
def pyUpper (s : String) : String := ⟨s.data.map Char.toUpper⟩

/-- Smart pass detection, lines 100 to 105 of src/Football/main.py. -/
def isPass (game_type poss_type : String) : Bool :=
  (game_type != "" && strContains "PASS" (pyUpper game_type)) ||
  (poss_type != "" &&
    (pyUpper poss_type == "PA" || strContains "PASS" (pyUpper poss_type)))

/-- Reading an optional rational field with subscript access: raises
KeyError when the key is absent. -/
def getQ (o : Option ℚ) : Except Unit ℚ :=
  match o with
  | none => .error ()
  | some v => .ok v

/-- The scan of one player group in the inline coordinate search of
parse_uploaded_json_content (lines 111 to 123).  The accumulator c is
the coords variable: a match returns its coordinates at once, otherwise
the first player seen is recorded as fallback.  Reading a missing key
raises, escaping the loop and the whole parse. -/
def scanGroupMain (pid : Option Int) :
    List RawPlayer → Option (ℚ × ℚ) → Except Unit (Option (ℚ × ℚ))
  | [], c => .ok c
  | p :: rest, c =>
    match p.playerId with
    | none => .error ()
    | some i =>
      if some i = pid then do
        let px ← getQ p.x
        let py ← getQ p.y
        .ok (some (px, py))
      else
        match c with
        | some c0 => scanGroupMain pid rest (some c0)
        | none => do
          let px ← getQ p.x
          let py ← getQ p.y
          scanGroupMain pid rest (some (px, py))

/-- The inline home then away coordinate search of
parse_uploaded_json_content: the away group is scanned only under
`if not coords`, that is only when the home scan produced neither a
match nor a fallback. -/
def resolveCoordsMain (e : RawEvent) (pid : Option Int) :
    Except Unit (Option (ℚ × ℚ)) := do
  let c1 ← match e.homePlayers with
    | none => (.ok none : Except Unit (Option (ℚ × ℚ)))
    | some hs => scanGroupMain pid hs none
  match c1 with
  | some c => .ok (some c)
  | none =>
    match e.awayPlayers with
    | none => .ok none
    | some as_ => scanGroupMain pid as_ none

/-- The scan of one group in get_player_coordinates of
src/Football/generate_play_datasets.py.  Unlike the inline variant, a
match returns from the whole function (inl), while the end of the loop
hands the recorded fallback on to the caller (inr). -/
def scanGen (pid : Option Int) :
    List RawPlayer → Option (ℚ × ℚ) → Except Unit ((ℚ × ℚ) ⊕ Option (ℚ × ℚ))
  | [], c => .ok (.inr c)
  | p :: rest, c =>
    match p.playerId with
    | none => .error ()
    | some i =>
      if some i = pid then do
        let px ← getQ p.x
        let py ← getQ p.y
        .ok (.inl (px, py))
      else
        match c with
        | some c0 => scanGen pid rest (some c0)
        | none => do
          let px ← getQ p.x
          let py ← getQ p.y
          scanGen pid rest (some (px, py))

/-- get_player_coordinates of src/Football/generate_play_datasets.py:
search homePlayers then awayPlayers for an exact playerId match,
returning at once on a match; otherwise return the first player
encountered, scanning the away group even when a home fallback exists. -/
def get_player_coordinates (home away : Option (List RawPlayer))
    (pid : Option Int) : Except Unit (Option (ℚ × ℚ)) := do
  let r1 ← match home with
    | none => (.ok (.inr none) : Except Unit ((ℚ × ℚ) ⊕ Option (ℚ × ℚ)))
    | some hs => scanGen pid hs none
  match r1 with
  | .inl m => .ok (some m)
  | .inr c1 =>
    let r2 ← match away with
      | none => (.ok (.inr c1) : Except Unit ((ℚ × ℚ) ⊕ Option (ℚ × ℚ)))
      | some as_ => scanGen pid as_ c1
    match r2 with
    | .inl m => .ok (some m)
    | .inr c2 => .ok c2

/-! ## Segmentation state machine of parse_uploaded_json_content -/

/-- One step annotation stored beside each trajectory point. -/
structure Meta where
  player : String
  team : String
deriving DecidableEq, Repr

/-- One extracted play, the dictionary appended to extracted_plays. -/
structure Play where
  trajectory : List (ℚ × ℚ)
  metadata : List Meta
  length : Nat
  play_id_local : String
deriving DecidableEq, Repr

/-- The loop variables of parse_uploaded_json_content. -/
structure SegState where
  current_team_id : Option Int
  current_sequence : List (ℚ × ℚ)
  current_metadata : List Meta
  last_event_time : Int
  extracted_plays : List Play
deriving DecidableEq, Repr

/-- The play flushed from the current accumulation. -/
def mkPlay (s : SegState) : Play :=
  { trajectory := s.current_sequence
    metadata := s.current_metadata
    length := s.current_sequence.length
    play_id_local := "upload_" ++ toString s.extracted_plays.length }

/-- The chain break condition of line 85: team change or a time gap,
measured against the current watermark, above 30. -/
def breakCond (s : SegState) (f : Extracted) : Bool :=
  decide (f.team_id ≠ s.current_team_id) ||
  decide ((30 : Int) < f.event_time - s.last_event_time)

/-- Lines 85 to 96: on a chain break, flush the accumulation when it has
at least 2 points, then reset it and adopt the new team. -/
def applyBreak (s : SegState) (f : Extracted) : SegState :=
  if breakCond s f then
    { s with
      extracted_plays :=
        if 2 ≤ s.current_sequence.length then s.extracted_plays ++ [mkPlay s]
        else s.extracted_plays
      current_sequence := []
      current_metadata := []
      current_team_id := f.team_id }
  else s

/-- Line 97: a positive timestamp advances the watermark; zero or
negative timestamps leave it unchanged. -/
def applyWatermark (s : SegState) (f : Extracted) : SegState :=
  if 0 < f.event_time then { s with last_event_time := f.event_time } else s

/-- Lines 99 to 130: on a pass event, resolve coordinates and append the
point and its metadata; coordinate resolution may raise past the
per-event handler. -/
def applyPass (e : RawEvent) (s : SegState) (f : Extracted) :
    Except Unit SegState :=
  if isPass f.game_type f.poss_type then
    match resolveCoordsMain e f.player_id with
    | .error u => .error u
    | .ok none => .ok s
    | .ok (some xy) =>
      .ok { s with
            current_sequence := s.current_sequence ++ [xy]
            current_metadata :=
              s.current_metadata ++ [⟨f.player_name, f.team_name⟩] }
  else .ok s

/-- The body of the event loop: a failing extraction is absorbed by the
per-event except clause (the state is untouched); any other exception
escapes. -/
def processEvent (s : SegState) (e : RawEvent) : Except Unit SegState :=
  match extractFields e with
  | none => .ok s
  | some f => applyPass e (applyWatermark (applyBreak s f) f) f

/-- The event loop, aborting on an uncaught exception. -/
def runEvents : SegState → List RawEvent → Except Unit SegState
  | s, [] => .ok s
  | s, e :: es =>
    match processEvent s e with
    | .error u => .error u
    | .ok s1 => runEvents s1 es

/-- Lines 132 to 139: the final flush of the remaining accumulation. -/
def flushLast (s : SegState) : List Play :=
  if 2 ≤ s.current_sequence.length then s.extracted_plays ++ [mkPlay s]
  else s.extracted_plays

/-- The initial loop state of lines 63 to 66. -/
def initState : SegState :=
  { current_team_id := none
    current_sequence := []
    current_metadata := []
    last_event_time := -999
    extracted_plays := [] }

/-- The sort key comparison of lines 58 to 61: by sequence then
eventTime, each defaulting to 0. -/
def eventSortLe (a b : RawEvent) : Bool :=
  decide (a.sequence.getD 0 < b.sequence.getD 0) ||
  (decide (a.sequence.getD 0 = b.sequence.getD 0) &&
    decide (a.eventTime.getD 0 ≤ b.eventTime.getD 0))

/-- parse_uploaded_json_content of src/Football/main.py: sort the
events, run the segmentation loop, flush the tail; the enclosing except
clause of lines 141 to 143 turns any uncaught exception into an empty
result. -/
def parse_uploaded_json_content (events : List RawEvent) : List Play :=
  match runEvents initState (pySort eventSortLe events) with
  | .error _ => []
  | .ok s => flushLast s

/-! ## analyze_match: comparison preparation and match ranking -/

/-- The numpy expression t - t[0]: subtract the first row from every
row.  In analyze_match the arrays it is applied to always have at least
two rows, since they come from segmentation. -/
def rebaseArr (t : List (ℚ × ℚ)) : List (ℚ × ℚ) :=
  t.map (fun p => (p.1 - t.headI.1, p.2 - t.headI.2))

/-- Lines 166 to 190 of src/Football/main.py: under match_mode
relative, both the query and the database trajectory are re-based on
their first point before the DTW call; any other mode leaves both
untouched.  The result pair is (q_comp, db_comp). -/
def analyzeComp (match_mode : String) (q_traj db_coords : List (ℚ × ℚ)) :
    List (ℚ × ℚ) × List (ℚ × ℚ) :=
  let q_comp := if match_mode = "relative" then rebaseArr q_traj else q_traj
  let db_comp :=
    if match_mode = "relative" then rebaseArr db_coords else db_coords
  (q_comp, db_comp)

/-- Relative re-basing in the words of the spec: subtract the first
point of the sequence from every point.  Stated separately from
rebaseArr (the numpy translation) so the two can be compared. -/
def rebaseSpec : List (ℚ × ℚ) → List (ℚ × ℚ)
  | [] => []
  | p :: rest => (p :: rest).map (fun q => (q.1 - p.1, q.2 - p.2))

/-- A reference play of the loaded database bucket. -/
structure DbPlay where
  play_id : String
  trajectory : List (ℚ × ℚ)
deriving DecidableEq, Repr

/-- The score dictionary appended to play_scores for one candidate. -/
structure ScoredMatch where
  match_play_id : String
  similarity_score : ℚ
  match_trajectory : List (ℚ × ℚ)
deriving DecidableEq, Repr

/-- Building the play_scores entry of one candidate; the similarity
score D abstracts the fastdtw call on the prepared trajectories. -/
def mkScore (D : DbPlay → ℚ) (p : DbPlay) : ScoredMatch :=
  ⟨p.play_id, D p, p.trajectory⟩

/-- The key comparison of play_scores.sort. -/
def scoreLe (a b : ScoredMatch) : Bool :=
  decide (a.similarity_score ≤ b.similarity_score)

/-- Lines 172 to 201 of src/Football/main.py: score every candidate of
the queried length bucket in order, sort stably by score, keep the
first three; an empty bucket skips the whole block and leaves
best_matches empty. -/
def bestMatchesFor (D : DbPlay → ℚ) (candidates : List DbPlay) :
    List ScoredMatch :=
  if candidates.isEmpty then []
  else (pySort scoreLe (candidates.map (mkScore D))).take 3

end Football

namespace DTWEngine

/-- The error kinds of the distance contract. -/
inductive DTWError where
  | EmptySequence : DTWError
deriving DecidableEq, Repr

/-- Three way minimum of the predecessors of a DTW cell. -/
def min3 (a b c : ℚ) : ℚ := min a (min b c)

/-- The first row of the cumulative cost matrix: only the left
predecessor exists, the cell (0,0) is seeded with the local distance. -/
def firstRow (d : α → α → ℚ) (a0 : α) : List α → ℚ → List ℚ
  | [], _ => []
  | bj :: bs, acc => (acc + d a0 bj) :: firstRow d a0 bs (acc + d a0 bj)

/-- The tail of a later row: each cell adds the local distance to the
minimum of the up, left and diagonal predecessors. -/
def nextRowAux (d : α → α → ℚ) (ai : α) :
    List α → List ℚ → ℚ → ℚ → List ℚ
  | [], _, _, _ => []
  | _ :: _, [], _, _ => []
  | bj :: bs, up :: prest, left, diag =>
    let c := d ai bj + min3 up left diag
    c :: nextRowAux d ai bs prest c up

/-- One later row of the cumulative cost matrix: the first cell has only
the up predecessor. -/
def nextRow (d : α → α → ℚ) (ai : α) (b : List α) (prev : List ℚ) :
    List ℚ :=
  match b, prev with
  | b0 :: bs, p0 :: ps =>
    let c0 := p0 + d ai b0
    c0 :: nextRowAux d ai bs ps c0 p0
  | _, _ => []

/-- Exact DTW alignment cost, the classic quadratic dynamic program of
section 4.3 of the spec: cumulative cost rows over the second sequence,
answer at the last cell. -/
def dtwCost (d : α → α → ℚ) (a b : List α) : ℚ :=
  match a with
  | [] => 0
  | a0 :: arest =>
    (arest.foldl (fun row ai => nextRow d ai b row) (firstRow d a0 b 0)
      ).getLast?.getD 0

/-- Modelled from the spec: the DTW engine of sections 4.3 and 7 is the
external fastdtw library, absent from src/ where only its callers live.
distance rejects an empty side with the EmptySequence error kind and
otherwise returns the exact alignment cost. -/
def distance (d : α → α → ℚ) (a b : List α) : Except DTWError ℚ :=
  if a.isEmpty || b.isEmpty then .error .EmptySequence
  else .ok (dtwCost d a b)

/-- Scalar local cost used to exercise the engine on pitch values. -/
def absDist (x y : ℚ) : ℚ := |x - y|

end DTWEngine

namespace Melody

/-! ## get_top_matches_subsequence of src/main.py (lines 101 to 134) -/

/-- min_window = max(5, int(query_len * 0.8)); int truncates the
product toward zero, which on these magnitudes is the floor of four
fifths. -/
def minWindow (query_len : Nat) : Nat := max 5 (4 * query_len / 5)

/-- step = max(1, min_window // 4). -/
def stepOf (mw : Nat) : Nat := max 1 (mw / 4)

/-- The start positions range(0, len(ref_seq) - min_window + 1, step);
the stop bound is an integer and a nonpositive stop gives no
positions. -/
def windowStarts (ref_len mw : Nat) : List Nat :=
  if ((ref_len : Int) - (mw : Int) + 1) ≤ 0 then []
  else
    (List.range ((((ref_len : Int) - (mw : Int) + 1).toNat + stepOf mw - 1) /
        stepOf mw)).map
      (fun i => i * stepOf mw)

/-- The slice ref_seq[start:end] with end = min(start + min_window,
len(ref_seq)). -/
def segmentAt (ref : List ℚ) (mw start : Nat) : List ℚ :=
  (ref.drop start).take (min (start + mw) ref.length - start)

/-- The running minimum of the window loop: none models the float
infinity min_dist starts from, beside the best 1-D segment. -/
structure ScanAcc where
  min_dist : Option ℚ
  best_segment : List ℚ
deriving DecidableEq, Repr

/-- The comparison normalized_dist < min_dist against the possibly
infinite running minimum. -/
def ltInf (x : ℚ) : Option ℚ → Bool
  | none => true
  | some m => decide (x < m)

/-- One iteration of the window loop, lines 107 to 119: slice the
segment, skip it when shorter than seven tenths of the window,
otherwise score it as the DTW distance D between query and segment
divided by the query length, keeping the running minimum and its
segment. -/
def scanStep (D : List ℚ → List ℚ → ℚ) (q ref : List ℚ) (mw : Nat)
    (acc : ScanAcc) (s : Nat) : ScanAcc :=
  let seg := segmentAt ref mw s
  if (seg.length : ℚ) < (7 : ℚ) / 10 * (mw : ℚ) then acc
  else
    let nd := D q seg / (q.length : ℚ)
    if ltInf nd acc.min_dist then ⟨some nd, seg⟩ else acc

/-- The window loop of lines 106 to 119 over all start positions. -/
def subseqScan (D : List ℚ → List ℚ → ℚ) (q ref : List ℚ) : ScanAcc :=
  (windowStarts ref.length (minWindow q.length)).foldl
    (scanStep D q ref (minWindow q.length)) ⟨none, []⟩

/-- The per-song result record of the loop of lines 95 to 131: each
candidate song gets the final minimum of its window scan as score. -/
def songResults (D : List ℚ → List ℚ → ℚ) (q : List ℚ)
    (db : List (String × List ℚ)) : List (String × ScanAcc) :=
  db.map (fun sd => (sd.1, subseqScan D q sd.2))

/-- A five point query: its window length is max 5 4 = 5. -/
def q0 : List ℚ := [0, 0, 0, 0, 0]

/-- A six point reference, long enough for two window positions. -/
def ref0 : List ℚ := [0, 1, 2, 3, 4, 5]

/-- A four point reference, shorter than the window length. -/
def refShort : List ℚ := [0, 0, 0, 0]

/-- A concrete stand in for the external DTW distance call. -/
def exampleDist (a b : List ℚ) : ℚ := (a.length : ℚ) * (b.length : ℚ)

end Melody

namespace Football

/-! ## Well-formedness predicates and concrete inputs -/

/-- The sequence invariant of the spec: at least two points, the cached
length equals the point count, one metadata entry per point. -/
def PlayWF (p : Play) : Prop :=
  2 ≤ p.trajectory.length ∧ p.length = p.trajectory.length ∧
    p.metadata.length = p.trajectory.length

/-- The loop invariant of segmentation: every flushed play is well
formed and the running metadata stays in lockstep with the running
point list. -/
def StateWF (s : SegState) : Prop :=
  (∀ p ∈ s.extracted_plays, PlayWF p) ∧
    s.current_metadata.length = s.current_sequence.length

/-- A well formed pass event of team 1 at time t whose single home
player carries the target playerId and the coordinates (x, y). -/
def evA (t : Int) (x y : ℚ) (pid : Int) : RawEvent :=
  { sequence := none
    eventTime := some t
    gameEvents := .val
      { teamId := some 1, playerId := some pid, playerName := some "P"
        teamName := some "T", gameEventType := some "PASS" }
    possessionEvents := .val { possessionEventType := some "PA" }
    homePlayers := some [{ playerId := some pid, x := some x, y := some y }]
    awayPlayers := none }

/-- The three events of the segmentation scenario of the spec: times 0,
5 and 40, one team, points (0,0), (1,0), (2,0). -/
def c1Events : List RawEvent := [evA 0 0 0 10, evA 5 1 0 10, evA 40 2 0 10]

/-- Two pass events at times 1 and 2 forming one valid chain. -/
def c6Events : List RawEvent := [evA 1 0 0 10, evA 2 1 0 10]

/-- The single play segmentation extracts from c6Events. -/
def c6Play : Play :=
  { trajectory := [(0, 0), (1, 0)]
    metadata := [⟨"P", "T"⟩, ⟨"P", "T"⟩]
    length := 2
    play_id_local := "upload_0" }

/-- A pass event whose only player entry is missing the playerId key:
reading it raises KeyError outside the per-event handler. -/
def evBadPlayers : RawEvent :=
  { sequence := none
    eventTime := some 3
    gameEvents := .val
      { teamId := some 1, playerId := some 10, playerName := some "P"
        teamName := some "T", gameEventType := some "PASS" }
    possessionEvents := .val { possessionEventType := some "PA" }
    homePlayers := some [{ playerId := none, x := some 5, y := some 5 }]
    awayPlayers := none }

/-- A valid two event chain followed by the malformed player event. -/
def c8All : List RawEvent := [evA 1 0 0 10, evA 2 1 0 10, evBadPlayers]

/-- The same stream with the malformed event removed. -/
def c8Rest : List RawEvent := [evA 1 0 0 10, evA 2 1 0 10]

/-- An event whose gameEvents value is not a dictionary, so the
attribute access inside the per-event try block raises and the except
clause skips the event. -/
def evBadGE : RawEvent :=
  { sequence := none
    eventTime := some 7
    gameEvents := .notDict
    possessionEvents := .missing
    homePlayers := none
    awayPlayers := none }

/-- A pass event whose target player 2 sits in awayPlayers at (3, 4)
while homePlayers holds only the unrelated player 1 at (9, 9). -/
def c2Event : RawEvent :=
  { sequence := none
    eventTime := some 1
    gameEvents := .val
      { teamId := some 1, playerId := some 2, playerName := some "P"
        teamName := some "T", gameEventType := some "PASS" }
    possessionEvents := .val { possessionEventType := some "PA" }
    homePlayers := some [{ playerId := some 1, x := some 9, y := some 9 }]
    awayPlayers := some [{ playerId := some 2, x := some 3, y := some 4 }] }

/-- The fields the try block extracts from evA 1 0 0 10. -/
def c7f : Extracted :=
  { team_id := some 1
    event_time := 1
    player_id := some 10
    player_name := "P"
    team_name := "T"
    game_type := "PASS"
    poss_type := "PA" }

/-- The state after processing evA 1 0 0 10 from the initial state. -/
def c7After : SegState :=
  { current_team_id := some 1
    current_sequence := [(0, 0)]
    current_metadata := [⟨"P", "T"⟩]
    last_event_time := 1
    extracted_plays := [] }

/-- A concrete stand in for the similarity score of a candidate. -/
def c5D : DbPlay → ℚ := fun p => (p.trajectory.length : ℚ)

/-- A two candidate bucket. -/
def c5Cands : List DbPlay := [⟨"a", [(0, 0), (1, 1)]⟩, ⟨"b", [(2, 2)]⟩]

end Football

/-! # Theorems -/

/-! ## Supporting lemmas on the segmentation state machine -/

namespace Football

lemma stateWF_applyBreak (s : SegState) (f : Extracted) (h : StateWF s) :
    StateWF (applyBreak s f) := by
  unfold applyBreak
  split
  · refine ⟨?_, rfl⟩
    intro p hp
    simp only at hp
    split at hp
    · rcases List.mem_append.1 hp with h1 | h1
      · exact h.1 p h1
      · rcases List.mem_singleton.1 h1 with rfl
        exact ⟨by assumption, rfl, h.2⟩
    · exact h.1 p hp
  · exact h

lemma stateWF_applyWatermark (s : SegState) (f : Extracted) (h : StateWF s) :
    StateWF (applyWatermark s f) := by
  unfold applyWatermark
  split
  · exact ⟨h.1, h.2⟩
  · exact h

lemma stateWF_applyPass (e : RawEvent) (s : SegState) (f : Extracted)
    (s1 : SegState) (h : StateWF s) (hp : applyPass e s f = .ok s1) :
    StateWF s1 := by
  unfold applyPass at hp
  split at hp
  · cases hres : resolveCoordsMain e f.player_id with
    | error u => rw [hres] at hp; cases hp
    | ok c =>
      rw [hres] at hp
      cases c with
      | none =>
        cases hp
        exact h
      | some xy =>
        cases hp
        refine ⟨h.1, ?_⟩
        simp [h.2]
  · cases hp
    exact h

lemma stateWF_processEvent (s : SegState) (e : RawEvent) (s1 : SegState)
    (h : StateWF s) (hp : processEvent s e = .ok s1) : StateWF s1 := by
  unfold processEvent at hp
  cases hx : extractFields e with
  | none =>
    rw [hx] at hp
    cases hp
    exact h
  | some f =>
    rw [hx] at hp
    exact stateWF_applyPass e _ f s1
      (stateWF_applyWatermark _ f (stateWF_applyBreak s f h)) hp

lemma stateWF_runEvents (s : SegState) (es : List RawEvent) (s1 : SegState)
    (h : StateWF s) (hr : runEvents s es = .ok s1) : StateWF s1 := by
  induction es generalizing s with
  | nil =>
    cases hr
    exact h
  | cons e rest ih =>
    unfold runEvents at hr
    cases hp : processEvent s e with
    | error u => rw [hp] at hr; cases hr
    | ok s2 =>
      rw [hp] at hr
      exact ih s2 (stateWF_processEvent s e s2 h hp) hr

lemma playWF_flushLast (s : SegState) (p : Play) (h : StateWF s)
    (hp : p ∈ flushLast s) : PlayWF p := by
  unfold flushLast at hp
  split at hp
  · rcases List.mem_append.1 hp with h1 | h1
    · exact h.1 p h1
    · rcases List.mem_singleton.1 h1 with rfl
      exact ⟨by assumption, rfl, h.2⟩
  · exact h.1 p hp

lemma stateWF_init : StateWF initState := by
  refine ⟨?_, rfl⟩
  intro p hp
  cases hp

end Football

/-! ## Claim theorems -/

/-- C1 counterexample: on the three scenario events (t=0, t=5, t=40, one
team, threshold 30, minimum length 2), segmentation does not emit the
single sequence [(0,0),(1,0)] the claim states. -/
theorem segmentation_scenario_counterexample :
    ¬ ((Football.parse_uploaded_json_content Football.c1Events).map
        (fun p => p.trajectory) = [[((0 : ℚ), (0 : ℚ)), ((1 : ℚ), (0 : ℚ))]]) := by
  decide

/-- C1 amended: the scenario emits no sequence at all.  The timestamp 0
of the first event never advances the watermark, which stays at the
sentinel -999, so the gap at t=5 is 1004 > 30 and breaks the chain while
it holds only [(0,0)]; the break at t=40 discards [(1,0)] and the final
flush discards the last single point. -/
theorem segmentation_scenario_amended :
    Football.parse_uploaded_json_content Football.c1Events = [] := by
  decide

/-- C2: on an event whose target player 2 is present in awayPlayers at
(3,4) while homePlayers holds only player 1 at (9,9), the inline
resolver of src/Football/main.py returns the home fallback (9,9) even
though an exact identifier match exists, because its guard not coords
sees the fallback and skips the away scan; get_player_coordinates of
src/Football/generate_play_datasets.py returns the match (3,4) as the
claim states. -/
theorem resolver_away_match_masked :
    Football.resolveCoordsMain Football.c2Event (some 2) =
      .ok (some (9, 9)) ∧
    Football.get_player_coordinates Football.c2Event.homePlayers
      Football.c2Event.awayPlayers (some 2) = .ok (some (3, 4)) :=
  ⟨rfl, rfl⟩

/-- C3: a distance computation with an empty query or candidate fails
with the EmptySequence error kind rather than returning a number. -/
theorem distance_empty_error (d : α → α → ℚ) (a b : List α)
    (h : a = [] ∨ b = []) :
    DTWEngine.distance d a b = .error .EmptySequence := by
  rcases h with h | h <;> subst h <;> simp [DTWEngine.distance]

/-- C3 witness: the empty query against a one point candidate. -/
theorem distance_empty_error_witness :
    DTWEngine.distance DTWEngine.absDist ([] : List ℚ) [(1 : ℚ)] =
      .error .EmptySequence :=
  distance_empty_error DTWEngine.absDist [] [1] (Or.inl rfl)

/-- C8 counterexample: a stream whose third event has a player entry
missing the playerId key does not yield the sequences of the remaining
events; the KeyError escapes the per-event handler, the enclosing
handler returns the empty list and the valid two point chain of the
first two events is lost. -/
theorem malformed_event_abort_counterexample :
    ¬ (Football.parse_uploaded_json_content Football.c8All =
        Football.parse_uploaded_json_content Football.c8Rest) := by
  decide

/-- C8 amended: only an event whose field extraction raises (its
gameEvents or possessionEvents value is not a dictionary) is skipped
with the state untouched; an event malformed below that level, such as
a pass event whose player entry lacks playerId, aborts the whole run,
which then returns no plays at all. -/
theorem malformed_event_amended :
    (∀ (s : Football.SegState) (e : Football.RawEvent),
        Football.extractFields e = none →
          Football.processEvent s e = .ok s) ∧
    Football.parse_uploaded_json_content Football.c8All = [] := by
  constructor
  · intro s e h
    unfold Football.processEvent
    rw [h]
  · decide

/-- C8 witness: a not-a-dictionary gameEvents event is skipped from the
initial state. -/
theorem malformed_event_amended_witness :
    Football.processEvent Football.initState Football.evBadGE =
      .ok Football.initState :=
  malformed_event_amended.1 Football.initState Football.evBadGE (by decide)

/-- C9: the pair of trajectories handed to the DTW call is re-based on
each first point exactly under match_mode relative; any other mode,
including the default absolute, leaves both coordinate lists
untouched. -/
theorem relative_rebasing_iff (mode : String) (q db : List (ℚ × ℚ)) :
    Football.analyzeComp mode q db =
      ((if mode = "relative" then Football.rebaseSpec q else q),
        (if mode = "relative" then Football.rebaseSpec db else db)) := by
  have hr : ∀ t : List (ℚ × ℚ), Football.rebaseArr t = Football.rebaseSpec t := by
    intro t
    cases t with
    | nil => rfl
    | cons p rest => rfl
  unfold Football.analyzeComp
  rw [hr, hr]

/-- C6: every play emitted by segmentation is well formed: at least two
points, the cached length field equals the point count, and exactly one
metadata entry per point; shorter accumulations are never emitted. -/
theorem emitted_play_wellformed (events : List Football.RawEvent)
    (p : Football.Play)
    (hp : p ∈ Football.parse_uploaded_json_content events) :
    2 ≤ p.trajectory.length ∧ p.length = p.trajectory.length ∧
      p.metadata.length = p.trajectory.length := by
  unfold Football.parse_uploaded_json_content at hp
  cases hr : Football.runEvents Football.initState
      (pySort Football.eventSortLe events) with
  | error u =>
    rw [hr] at hp
    cases hp
  | ok s =>
    rw [hr] at hp
    exact Football.playWF_flushLast s p
      (Football.stateWF_runEvents _ _ s Football.stateWF_init hr) hp

/-- C6 witness: the play extracted from the two event chain c6Events. -/
theorem emitted_play_wellformed_witness :
    2 ≤ Football.c6Play.trajectory.length ∧
      Football.c6Play.length = Football.c6Play.trajectory.length ∧
      Football.c6Play.metadata.length = Football.c6Play.trajectory.length :=
  emitted_play_wellformed Football.c6Events Football.c6Play (by decide)

namespace Football

lemma applyBreak_last (s : SegState) (f : Extracted) :
    (applyBreak s f).last_event_time = s.last_event_time := by
  unfold applyBreak
  split <;> rfl

lemma applyBreak_plays (s : SegState) (f : Extracted) :
    (applyBreak s f).extracted_plays =
      if breakCond s f = true ∧ 2 ≤ s.current_sequence.length
      then s.extracted_plays ++ [mkPlay s] else s.extracted_plays := by
  unfold applyBreak
  split
  · rename_i hb
    simp only
    split
    · rename_i h2
      rw [if_pos ⟨hb, h2⟩]
    · rename_i h2
      rw [if_neg (fun hc => h2 hc.2)]
  · rename_i hb
    rw [if_neg (fun hc => hb hc.1)]

lemma applyWatermark_last (s : SegState) (f : Extracted) :
    (applyWatermark s f).last_event_time =
      if 0 < f.event_time then f.event_time else s.last_event_time := by
  unfold applyWatermark
  split <;> rfl

lemma applyWatermark_plays (s : SegState) (f : Extracted) :
    (applyWatermark s f).extracted_plays = s.extracted_plays := by
  unfold applyWatermark
  split <;> rfl

lemma applyPass_preserves (e : RawEvent) (s : SegState) (f : Extracted)
    (s1 : SegState) (hp : applyPass e s f = .ok s1) :
    s1.last_event_time = s.last_event_time ∧
      s1.extracted_plays = s.extracted_plays := by
  unfold applyPass at hp
  split at hp
  · cases hres : resolveCoordsMain e f.player_id with
    | error u => rw [hres] at hp; cases hp
    | ok c =>
      rw [hres] at hp
      cases c with
      | none =>
        cases hp
        exact ⟨rfl, rfl⟩
      | some xy =>
        cases hp
        exact ⟨rfl, rfl⟩
  · cases hp
    exact ⟨rfl, rfl⟩

end Football

/-- C7: for an event whose fields extract, a nonpositive timestamp
leaves the watermark unchanged and a positive one overwrites it; the
flush decision of the same event is taken against the watermark from
before the update, as witnessed by the appended plays depending only on
the incoming state. -/
theorem watermark_update_rule (s : Football.SegState)
    (e : Football.RawEvent) (f : Football.Extracted)
    (s1 : Football.SegState) (hf : Football.extractFields e = some f)
    (hs : Football.processEvent s e = .ok s1) :
    (f.event_time ≤ 0 → s1.last_event_time = s.last_event_time) ∧
    (0 < f.event_time → s1.last_event_time = f.event_time) ∧
    s1.extracted_plays =
      (if Football.breakCond s f = true ∧ 2 ≤ s.current_sequence.length
       then s.extracted_plays ++ [Football.mkPlay s]
       else s.extracted_plays) := by
  unfold Football.processEvent at hs
  rw [hf] at hs
  obtain ⟨hlast, hplays⟩ := Football.applyPass_preserves e _ f s1 hs
  rw [Football.applyWatermark_last, Football.applyBreak_last] at hlast
  rw [Football.applyWatermark_plays, Football.applyBreak_plays] at hplays
  refine ⟨?_, ?_, hplays⟩
  · intro h0
    rw [hlast, if_neg (by omega)]
  · intro h0
    rw [hlast, if_pos h0]

/-- C7 witness: processing the pass event at time 1 from the initial
state ends with watermark 1 and no flushed play. -/
theorem watermark_update_rule_witness :
    ((Football.c7f.event_time ≤ 0 →
        Football.c7After.last_event_time =
          Football.initState.last_event_time) ∧
      (0 < Football.c7f.event_time →
        Football.c7After.last_event_time = Football.c7f.event_time) ∧
      Football.c7After.extracted_plays =
        (if Football.breakCond Football.initState Football.c7f = true ∧
            2 ≤ Football.initState.current_sequence.length
         then Football.initState.extracted_plays ++
            [Football.mkPlay Football.initState]
         else Football.initState.extracted_plays)) :=
  watermark_update_rule Football.initState (Football.evA 1 0 0 10)
    Football.c7f Football.c7After (by decide) rfl

/-! ## Supporting lemmas on the stable sort -/

section StableSortLemmas

variable {α : Type} (k : α → ℚ)

lemma pyInsert_perm (x : α) (l : List α) :
    (pyInsert (fun a b => decide (k a ≤ k b)) x l).Perm (x :: l) := by
  induction l with
  | nil => exact List.Perm.refl _
  | cons y ys ih =>
    unfold pyInsert
    split
    · exact List.Perm.refl _
    · exact (ih.cons y).trans (List.Perm.swap x y ys)

lemma pySort_perm (l : List α) :
    (pySort (fun a b => decide (k a ≤ k b)) l).Perm l := by
  induction l with
  | nil => exact List.Perm.refl _
  | cons x xs ih =>
    simp only [pySort]
    exact (pyInsert_perm k x _).trans (ih.cons x)

lemma pyInsert_pairwise (x : α) (l : List α)
    (h : l.Pairwise (fun a b => k a ≤ k b)) :
    (pyInsert (fun a b => decide (k a ≤ k b)) x l).Pairwise
      (fun a b => k a ≤ k b) := by
  induction l with
  | nil => simp [pyInsert]
  | cons y ys ih =>
    unfold pyInsert
    split
    · rename_i hxy
      have hxy1 : k x ≤ k y := of_decide_eq_true hxy
      rw [List.pairwise_cons]
      refine ⟨?_, h⟩
      intro z hz
      rcases List.mem_cons.1 hz with rfl | hz1
      · exact hxy1
      · exact le_trans hxy1 ((List.pairwise_cons.1 h).1 z hz1)
    · rename_i hxy
      have hyx : k y < k x := lt_of_not_le (fun hc => hxy (decide_eq_true hc))
      rw [List.pairwise_cons] at h
      rw [List.pairwise_cons]
      refine ⟨?_, ih h.2⟩
      intro z hz
      have hz2 : z ∈ x :: ys := (pyInsert_perm k x ys).mem_iff.1 hz
      rcases List.mem_cons.1 hz2 with rfl | hz1
      · exact le_of_lt hyx
      · exact h.1 z hz1

lemma pySort_pairwise (l : List α) :
    (pySort (fun a b => decide (k a ≤ k b)) l).Pairwise
      (fun a b => k a ≤ k b) := by
  induction l with
  | nil => simp [pySort]
  | cons x xs ih =>
    simp only [pySort]
    exact pyInsert_pairwise k x _ ih

lemma pyInsert_filter (x : α) (l : List α) (v : ℚ) :
    (pyInsert (fun a b => decide (k a ≤ k b)) x l).filter
        (fun a => decide (k a = v)) =
      if k x = v then x :: l.filter (fun a => decide (k a = v))
      else l.filter (fun a => decide (k a = v)) := by
  induction l with
  | nil =>
    by_cases hv : k x = v
    · simp [pyInsert, List.filter_cons, hv]
    · simp [pyInsert, List.filter_cons, hv]
  | cons y ys ih =>
    unfold pyInsert
    split
    · rename_i hxy
      by_cases hv : k x = v
      · simp [List.filter_cons, hv]
      · simp [List.filter_cons, hv]
    · rename_i hxy
      have hyx : k y < k x := lt_of_not_le (fun hc => hxy (decide_eq_true hc))
      by_cases hv : k x = v
      · have hyv : ¬ (k y = v) := by
          rw [← hv]
          exact ne_of_lt hyx
        simp [List.filter_cons, hyv, ih, hv]
      · by_cases hyv : k y = v
        · simp [List.filter_cons, hyv, ih, hv]
        · simp [List.filter_cons, hyv, ih, hv]

lemma pySort_filter (l : List α) (v : ℚ) :
    (pySort (fun a b => decide (k a ≤ k b)) l).filter
        (fun a => decide (k a = v)) =
      l.filter (fun a => decide (k a = v)) := by
  induction l with
  | nil => rfl
  | cons x xs ih =>
    simp only [pySort]
    rw [pyInsert_filter]
    by_cases hv : k x = v
    · rw [if_pos hv, ih, List.filter_cons, if_pos (by simp [hv])]
    · rw [if_neg hv, ih, List.filter_cons, if_neg (by simp [hv])]

end StableSortLemmas

/-- C5: the match list of one query against a length bucket is sorted
ascending by similarity score, has length min 3 (number of candidates)
(so all candidates when fewer than three exist), the stable sort leaves
candidates of equal score in their insertion order, and an empty bucket
yields the empty list rather than an error. -/
theorem query_top3_ordering (D : Football.DbPlay → ℚ)
    (cands : List Football.DbPlay) :
    (Football.bestMatchesFor D cands).Pairwise
        (fun a b => a.similarity_score ≤ b.similarity_score) ∧
    (Football.bestMatchesFor D cands).length = min 3 cands.length ∧
    (cands.length ≤ 3 →
      (Football.bestMatchesFor D cands).Perm
        (cands.map (Football.mkScore D))) ∧
    (∀ v : ℚ,
      (pySort Football.scoreLe (cands.map (Football.mkScore D))).filter
          (fun m => decide (m.similarity_score = v)) =
        (cands.map (Football.mkScore D)).filter
          (fun m => decide (m.similarity_score = v))) ∧
    (cands = [] → Football.bestMatchesFor D cands = []) := by
  have hse : Football.scoreLe =
      fun a b : Football.ScoredMatch =>
        decide ((fun m : Football.ScoredMatch => m.similarity_score) a ≤
          (fun m : Football.ScoredMatch => m.similarity_score) b) := rfl
  by_cases hc : cands = []
  · subst hc
    exact ⟨by simp [Football.bestMatchesFor],
      by simp [Football.bestMatchesFor],
      fun _ => by simp [Football.bestMatchesFor],
      fun v => rfl, fun _ => rfl⟩
  · have hne : cands.isEmpty = false := by
      cases cands with
      | nil => exact absurd rfl hc
      | cons a l => rfl
    have hbm : Football.bestMatchesFor D cands =
        (pySort Football.scoreLe (cands.map (Football.mkScore D))).take 3 := by
      unfold Football.bestMatchesFor
      rw [hne]
      rfl
    have hperm : (pySort Football.scoreLe
        (cands.map (Football.mkScore D))).Perm
          (cands.map (Football.mkScore D)) := by
      rw [hse]
      exact pySort_perm _ _
    have hlen : (pySort Football.scoreLe
        (cands.map (Football.mkScore D))).length = cands.length := by
      rw [hperm.length_eq, List.length_map]
    refine ⟨?_, ?_, ?_, ?_, fun hcc => absurd hcc hc⟩
    · rw [hbm]
      refine List.Pairwise.sublist (List.take_sublist 3 _) ?_
      rw [hse]
      exact pySort_pairwise _ _
    · rw [hbm, List.length_take, hlen]
    · intro h3
      rw [hbm, List.take_of_length_le (by rw [hlen]; exact h3)]
      exact hperm
    · intro v
      rw [hse]
      exact pySort_filter _ _ v

/-- C5 witness: a two candidate bucket returns both candidates. -/
theorem query_top3_ordering_witness :
    (Football.bestMatchesFor Football.c5D Football.c5Cands).Perm
      (Football.c5Cands.map (Football.mkScore Football.c5D)) :=
  (query_top3_ordering Football.c5D Football.c5Cands).2.2.1 (by decide)

/-! ## Supporting lemmas on the sliding window -/

namespace Melody

lemma stepOf_pos (mw : Nat) : 0 < stepOf mw :=
  Nat.lt_of_lt_of_le Nat.zero_lt_one (Nat.le_max_left 1 (mw / 4))

lemma minWindow_ge5 (n : Nat) : 5 ≤ minWindow n :=
  Nat.le_max_left 5 (4 * n / 5)

lemma minWindow_pos (n : Nat) : 0 < minWindow n :=
  Nat.lt_of_lt_of_le (by norm_num) (minWindow_ge5 n)

lemma mem_windowStarts (n mw s : Nat)
    (hs : s ∈ windowStarts n mw) : s + mw ≤ n := by
  unfold windowStarts at hs
  split at hs
  · simp at hs
  · rename_i hstop
    simp only [List.mem_map, List.mem_range] at hs
    obtain ⟨i, hi, rfl⟩ := hs
    have hst : 0 < stepOf mw := stepOf_pos mw
    have hmn : mw ≤ n := by
      push_neg at hstop
      omega
    have htn : (((n : Int) - (mw : Int) + 1)).toNat = n - mw + 1 := by
      omega
    rw [htn] at hi
    set st := stepOf mw with hstdef
    set T := n - mw + 1 with hT
    have hk : (T + st - 1) / st * st ≤ T + st - 1 := Nat.div_mul_le_self _ _
    set kk := (T + st - 1) / st with hkk
    have hk1 : 1 ≤ kk := by omega
    have hk2 : (kk - 1) * st + st = kk * st := by
      have : kk - 1 + 1 = kk := by omega
      calc (kk - 1) * st + st = (kk - 1 + 1) * st := by ring
        _ = kk * st := by rw [this]
    have hi1 : i * st ≤ (kk - 1) * st :=
      Nat.mul_le_mul_right st (by omega)
    omega

lemma segmentAt_length (ref : List ℚ) (mw s : Nat)
    (h : s + mw ≤ ref.length) : (segmentAt ref mw s).length = mw := by
  unfold segmentAt
  rw [List.length_take, List.length_drop]
  have h1 : min (s + mw) ref.length = s + mw := Nat.min_eq_left h
  rw [h1]
  omega

lemma windowStarts_nil_of_short (n mw : Nat) (h : n < mw) :
    windowStarts n mw = [] := by
  unfold windowStarts
  split
  · rfl
  · rename_i hstop
    push_neg at hstop
    omega

end Melody

/-- C10: every segment handed to the DTW call by the sliding window
loop has exactly max 5 (int of 0.8 times the query length) points, so
the guard skipping segments shorter than seven tenths of the window can
never fire, and a reference shorter than the window length produces no
window position at all. -/
theorem window_exact_length (q ref : List ℚ) :
    (∀ s ∈ Melody.windowStarts ref.length (Melody.minWindow q.length),
      (Melody.segmentAt ref (Melody.minWindow q.length) s).length =
          Melody.minWindow q.length ∧
        ¬ (((Melody.segmentAt ref (Melody.minWindow q.length) s).length : ℚ) <
            (7 : ℚ) / 10 * ((Melody.minWindow q.length : Nat) : ℚ))) ∧
    (ref.length < Melody.minWindow q.length →
      Melody.windowStarts ref.length (Melody.minWindow q.length) = []) := by
  constructor
  · intro s hs
    have hlen := Melody.segmentAt_length ref (Melody.minWindow q.length) s
      (Melody.mem_windowStarts ref.length (Melody.minWindow q.length) s hs)
    refine ⟨hlen, ?_⟩
    rw [hlen]
    have h5 : (5 : ℚ) ≤ ((Melody.minWindow q.length : Nat) : ℚ) := by
      exact_mod_cast Melody.minWindow_ge5 q.length
    intro hlt
    linarith
  · exact Melody.windowStarts_nil_of_short ref.length (Melody.minWindow q.length)

/-- C10 witness: with a five point query the window length is 5; the
six point reference ref0 admits the start 0 whose segment has exactly 5
points, and the four point reference refShort admits no start at all. -/
theorem window_exact_length_witness :
    ((Melody.segmentAt Melody.ref0 (Melody.minWindow Melody.q0.length) 0).length =
        Melody.minWindow Melody.q0.length ∧
      ¬ (((Melody.segmentAt Melody.ref0 (Melody.minWindow Melody.q0.length) 0).length : ℚ) <
          (7 : ℚ) / 10 * ((Melody.minWindow Melody.q0.length : Nat) : ℚ))) ∧
    Melody.windowStarts Melody.refShort.length (Melody.minWindow Melody.q0.length) = [] :=
  ⟨(window_exact_length Melody.q0 Melody.ref0).1 0 (by decide),
    (window_exact_length Melody.q0 Melody.refShort).2 (by decide)⟩

namespace Melody

lemma scanStep_no_guard (D : List ℚ → List ℚ → ℚ) (q ref : List ℚ)
    (mw : Nat) (acc : ScanAcc) (s : Nat)
    (hlen : (segmentAt ref mw s).length = mw) (h5 : 5 ≤ mw) :
    scanStep D q ref mw acc s =
      if ltInf (D q (segmentAt ref mw s) / (q.length : ℚ)) acc.min_dist
      then ⟨some (D q (segmentAt ref mw s) / (q.length : ℚ)),
        segmentAt ref mw s⟩
      else acc := by
  have hguard : ¬ (((segmentAt ref mw s).length : ℚ) <
      (7 : ℚ) / 10 * ((mw : Nat) : ℚ)) := by
    rw [hlen]
    intro hlt
    have h5q : (5 : ℚ) ≤ ((mw : Nat) : ℚ) := by exact_mod_cast h5
    linarith
  simp only [scanStep]
  rw [if_neg hguard]

lemma scan_foldl_min_mem (D : List ℚ → List ℚ → ℚ) (q ref : List ℚ)
    (mw : Nat) (h5 : 5 ≤ mw) (l : List Nat) :
    ∀ acc : ScanAcc,
      (∀ s ∈ l, (segmentAt ref mw s).length = mw) →
      (l.foldl (scanStep D q ref mw) acc).min_dist = acc.min_dist ∨
        ∃ s ∈ l, (l.foldl (scanStep D q ref mw) acc).min_dist =
          some (D q (segmentAt ref mw s) / (q.length : ℚ)) := by
  induction l with
  | nil =>
    intro acc _
    exact Or.inl rfl
  | cons s rest ih =>
    intro acc hl
    rw [List.foldl_cons,
      scanStep_no_guard D q ref mw acc s (hl s (List.mem_cons_self s rest)) h5]
    have hrest : ∀ t ∈ rest, (segmentAt ref mw t).length = mw :=
      fun t ht => hl t (List.mem_cons_of_mem s ht)
    split
    · rcases ih _ hrest with h1 | ⟨t, ht, he⟩
      · exact Or.inr ⟨s, List.mem_cons_self s rest, h1⟩
      · exact Or.inr ⟨t, List.mem_cons_of_mem s ht, he⟩
    · rcases ih acc hrest with h1 | ⟨t, ht, he⟩
      · exact Or.inl h1
      · exact Or.inr ⟨t, List.mem_cons_of_mem s ht, he⟩

lemma scan_foldl_isSome (D : List ℚ → List ℚ → ℚ) (q ref : List ℚ)
    (mw : Nat) (l : List Nat) :
    ∀ acc : ScanAcc, acc.min_dist.isSome = true →
      ((l.foldl (scanStep D q ref mw) acc).min_dist).isSome = true := by
  induction l with
  | nil =>
    intro acc h
    exact h
  | cons s rest ih =>
    intro acc h
    rw [List.foldl_cons]
    apply ih
    simp only [scanStep]
    split
    · exact h
    · split
      · rfl
      · exact h

lemma scan_foldl_ne_none (D : List ℚ → List ℚ → ℚ) (q ref : List ℚ)
    (mw : Nat) (h5 : 5 ≤ mw) (l : List Nat)
    (hl : ∀ s ∈ l, (segmentAt ref mw s).length = mw) (hne : l ≠ []) :
    ((l.foldl (scanStep D q ref mw) ⟨none, []⟩).min_dist).isSome = true := by
  cases l with
  | nil => exact absurd rfl hne
  | cons s rest =>
    rw [List.foldl_cons,
      scanStep_no_guard D q ref mw ⟨none, []⟩ s
        (hl s (List.mem_cons_self s rest)) h5]
    have hlt : ltInf (D q (segmentAt ref mw s) / (q.length : ℚ))
        (ScanAcc.mk none []).min_dist = true := rfl
    rw [if_pos hlt]
    exact scan_foldl_isSome D q ref mw rest _ rfl

end Melody

/-- C4: whenever at least one window position exists, the final score of
the window scan for a candidate equals the DTW distance between the
query and one of the evaluated windows divided by the query length (the
number of query points). -/
theorem subsequence_score_normalized (D : List ℚ → List ℚ → ℚ)
    (q ref : List ℚ)
    (h : Melody.windowStarts ref.length (Melody.minWindow q.length) ≠ []) :
    ∃ s ∈ Melody.windowStarts ref.length (Melody.minWindow q.length),
      (Melody.subseqScan D q ref).min_dist =
        some (D q (Melody.segmentAt ref (Melody.minWindow q.length) s) /
          (q.length : ℚ)) := by
  have hl : ∀ s ∈ Melody.windowStarts ref.length (Melody.minWindow q.length),
      (Melody.segmentAt ref (Melody.minWindow q.length) s).length =
        Melody.minWindow q.length :=
    fun s hs => Melody.segmentAt_length ref _ s
      (Melody.mem_windowStarts ref.length _ s hs)
  have h5 := Melody.minWindow_ge5 q.length
  unfold Melody.subseqScan
  rcases Melody.scan_foldl_min_mem D q ref _ h5 _ ⟨none, []⟩ hl with h1 | h2
  · exfalso
    have hs := Melody.scan_foldl_ne_none D q ref _ h5 _ hl h
    rw [h1] at hs
    simp at hs
  · exact h2

/-- C4 witness: the five point query against the six point reference
with a concrete distance function. -/
theorem subsequence_score_normalized_witness :
    ∃ s ∈ Melody.windowStarts Melody.ref0.length
        (Melody.minWindow Melody.q0.length),
      (Melody.subseqScan Melody.exampleDist Melody.q0 Melody.ref0).min_dist =
        some (Melody.exampleDist Melody.q0
            (Melody.segmentAt Melody.ref0 (Melody.minWindow Melody.q0.length) s) /
          (Melody.q0.length : ℚ)) :=
  subsequence_score_normalized Melody.exampleDist Melody.q0 Melody.ref0
    (by decide)
